import Mathlib

/-!
Verification of `src/umbra-js/src/utils/ens.ts` (umbra-protocol): helper
functions resolving an ENS domain to an umbra signature / public key /
bytecode text record, and publishing a signature, through an ENS public
resolver contract.

The resolver contract and its transport are external to the file; they are
embedded as an explicit `ExternalProvider` state (a text-record store plus
failure flags for each kind of external call).  Each embedded exported
function returns its result together with the list of external calls it
issued, and `setSignature` additionally returns the updated provider state.
The external helpers `eth-ens-namehash` (normalize/hash) and
`getPublicKeyFromSignature` are not part of this repository's source tree
and are modelled from the spec.
-/

deriving instance DecidableEq for Except

namespace UmbraEns

/-- Error values raised by the external layers (transport, contract,
domain normalization).  The code never inspects them, so a plain string
payload is enough. -/
abbrev Err := String

/-- The two well-known umbra text-record keys, verbatim from the source:
`export const umbraKeySignature = 'vnd.umbra-v0-signature'`. -/
def umbraKeySignature : String := "vnd.umbra-v0-signature"

/-- Verbatim from the source:
`export const umbraKeyBytecode = 'vnd.umbra-v0-bytecode'`. -/
def umbraKeyBytecode : String := "vnd.umbra-v0-bytecode"

/-- ASCII lower-casing of one character (A-Z mapped down, all else fixed). -/
def lowerChar (c : Char) : Char :=
  if 65 ≤ c.toNat ∧ c.toNat ≤ 90 then Char.ofNat (c.toNat + 32) else c

/-- ASCII upper-casing of one character (a-z mapped up, all else fixed). -/
def upperChar (c : Char) : Char :=
  if 97 ≤ c.toNat ∧ c.toNat ≤ 122 then Char.ofNat (c.toNat - 32) else c

/-- A string lower-cased character by character. -/
def lowerString (s : String) : String := ⟨s.data.map lowerChar⟩

/-- A string upper-cased character by character. -/
def upperString (s : String) : String := ⟨s.data.map upperChar⟩

/-- Characters legal in a normalized ENS label: a-z, 0-9, dot, hyphen. -/
def allowedChar (c : Char) : Bool :=
  (97 ≤ c.toNat && c.toNat ≤ 122) || (48 ≤ c.toNat && c.toNat ≤ 57) ||
    c = '.' || c = '-'

/-- Modelled from the spec: `ensNamehash.normalize` from the external
`eth-ens-namehash` package (not in this repository's source tree).  The
spec describes it as case/format-normalizing and as raising on a malformed
domain; we model it as ASCII lower-casing followed by a character check. -/
def normalize (name : String) : Except Err String :=
  let lowered := lowerString name
  if lowered.data.all allowedChar then Except.ok lowered
  else Except.error "Illegal char in ENS name"

/-- Modelled from the spec: `ensNamehash.hash` from the external
`eth-ens-namehash` package (not in this repository's source tree).  The
spec only requires a deterministic hash of the normalized domain, so any
injective pure function of the input serves as the model. -/
def hashIdent (s : String) : String := "node(" ++ s ++ ")"

/-- Embeds `namehash` from the source:
`return ensNamehash.hash(ensNamehash.normalize(name))`; an exception from
`normalize` propagates to the caller. -/
def namehash (name : String) : Except Err String :=
  match normalize name with
  | Except.ok n => Except.ok (hashIdent n)
  | Except.error e => Except.error e

/-- One external call issued through the provider: a resolver text-record
read (`publicResolver.text`) or write (`publicResolver.setText`). -/
inductive CallEvent where
  | read (node key : String)
  | write (node key value : String)
deriving DecidableEq, Repr

/-- State of the external provider/resolver pair: the stored text records
(an association list keyed by resolver node and record key), plus whether
each kind of external call currently fails, and the hash the next write
transaction will carry. -/
structure ExternalProvider where
  records : List ((String × String) × String)
  failText : Option Err
  failSetText : Option Err
  failWait : Option Err
  nextTxHash : String
deriving DecidableEq, Repr

/-- The stored text record for (node, key); the resolver returns the empty
string for a record that was never set. -/
def lookupRecord (records : List ((String × String) × String))
    (node key : String) : String :=
  match records.find? (fun p => p.1.1 == node && p.1.2 == key) with
  | some p => p.2
  | none => ""

/-- Modelled from the spec: the resolver contract's `text(node, key)` read
call, reached through `createContract(...)` (not in this repository's
source tree).  It returns the stored value (empty when unset) or raises
the transport's failure; either way one read call is issued. -/
def providerText (p : ExternalProvider) (node key : String) :
    Except Err String × List CallEvent :=
  match p.failText with
  | some e => (Except.error e, [CallEvent.read node key])
  | none => (Except.ok (lookupRecord p.records node key),
             [CallEvent.read node key])

/-- A write transaction as returned by the contract layer: its hash and
the outcome of awaiting `tx.wait()`. -/
structure Tx where
  hash : String
  waitResult : Except Err Unit
deriving DecidableEq, Repr

/-- Modelled from the spec: the resolver contract's
`setText(node, key, value)` write call, reached through
`createContract(...)` (not in this repository's source tree).  On success
it stores the value under (node, key) and returns the pending transaction;
on failure it leaves the store unchanged and raises; either way one write
call is issued. -/
def providerSetText (p : ExternalProvider) (node key value : String) :
    Except Err (Tx × ExternalProvider) × List CallEvent :=
  match p.failSetText with
  | some e => (Except.error e, [CallEvent.write node key value])
  | none =>
    (Except.ok
      ({ hash := p.nextTxHash,
         waitResult :=
           match p.failWait with
           | some e => Except.error e
           | none => Except.ok () },
       { p with records := ((node, key), value) :: p.records }),
     [CallEvent.write node key value])

/-- Embeds `getSignature` from the source: one resolver read of the
signature text record at `namehash(name)`; result paired with the trace of
external calls issued. -/
def getSignature (name : String) (p : ExternalProvider) :
    Except Err String × List CallEvent :=
  match namehash name with
  | Except.error e => (Except.error e, [])
  | Except.ok node => providerText p node umbraKeySignature

/-- Embeds `getBytecode` from the source: one resolver read of the
bytecode text record at `namehash(name)`. -/
def getBytecode (name : String) (p : ExternalProvider) :
    Except Err String × List CallEvent :=
  match namehash name with
  | Except.error e => (Except.error e, [])
  | Except.ok node => providerText p node umbraKeyBytecode

/-- Modelled from the spec: the external key-recovery helper
`getPublicKeyFromSignature` from `./utils` (not in this repository's
source tree); any deterministic function from signature to public key
serves as the model. -/
def getPublicKeyFromSignature (signature : String) : String :=
  "publicKeyOf(" ++ signature ++ ")"

/-- Embeds `getPublicKey` from the source, generalized over the
key-recovery helper it delegates to: fetch the signature, return
`undefined` (here `none`) when it is falsy (the empty string), otherwise
recover the key from it. -/
def getPublicKeyWith (recover : String → String) (name : String)
    (p : ExternalProvider) :
    Except Err (Option String) × List CallEvent :=
  match getSignature name p with
  | (Except.error e, tr) => (Except.error e, tr)
  | (Except.ok signature, tr) =>
    if signature = "" then (Except.ok none, tr)
    else (Except.ok (some (recover signature)), tr)

/-- Embeds `getPublicKey` from the source: `getPublicKeyWith` applied to
the imported key-recovery helper, exactly as the source calls it. -/
def getPublicKey (name : String) (p : ExternalProvider) :
    Except Err (Option String) × List CallEvent :=
  getPublicKeyWith getPublicKeyFromSignature name p

/-- Embeds `setSignature` from the source: one resolver write of the
signature text record at `namehash(name)`, awaiting `tx.wait()`, then
returning `tx.hash`.  Returns (result, post-state) with the trace of
external calls issued. -/
def setSignature (name : String) (p : ExternalProvider) (signature : String) :
    (Except Err String × ExternalProvider) × List CallEvent :=
  match namehash name with
  | Except.error e => ((Except.error e, p), [])
  | Except.ok node =>
    match providerSetText p node umbraKeySignature signature with
    | (Except.error e, tr) => ((Except.error e, p), tr)
    | (Except.ok (tx, pNew), tr) =>
      match tx.waitResult with
      | Except.error e => ((Except.error e, pNew), tr)
      | Except.ok _ => ((Except.ok tx.hash, pNew), tr)

/-- A sample healthy provider with no records, used by witnesses. -/
def p0 : ExternalProvider :=
  { records := [], failText := none, failSetText := none, failWait := none,
    nextTxHash := "0xabc" }

example : namehash "MyName.eth" = Except.ok "node(myname.eth)" := by decide
example : (getSignature "a.eth" p0).1 = Except.ok "" := by decide
example :
    (getSignature "a.eth" ((setSignature "a.eth" p0 "sig").1.2)).1
      = Except.ok "sig" := by decide

lemma toNat_ofNat_small (n : Nat) (h : n < 55296) : (Char.ofNat n).toNat = n := by
  have hv : n.isValidChar := Or.inl h
  simp [Char.ofNat, hv, Char.ofNatAux, Char.toNat, UInt32.toNat]

lemma toNat_lowerChar (c : Char) :
    (lowerChar c).toNat =
      if 65 ≤ c.toNat ∧ c.toNat ≤ 90 then c.toNat + 32 else c.toNat := by
  unfold lowerChar
  by_cases h : 65 ≤ c.toNat ∧ c.toNat ≤ 90
  · rw [if_pos h, if_pos h, toNat_ofNat_small _ (by omega)]
  · rw [if_neg h, if_neg h]

lemma toNat_upperChar (c : Char) :
    (upperChar c).toNat =
      if 97 ≤ c.toNat ∧ c.toNat ≤ 122 then c.toNat - 32 else c.toNat := by
  unfold upperChar
  by_cases h : 97 ≤ c.toNat ∧ c.toNat ≤ 122
  · rw [if_pos h, if_pos h, toNat_ofNat_small _ (by omega)]
  · rw [if_neg h, if_neg h]

lemma char_toNat_inj {c d : Char} (h : c.toNat = d.toNat) : c = d := by
  apply Char.ext
  have hv : c.val.toNat = d.val.toNat := h
  exact UInt32.toNat.inj hv

lemma lowerChar_upperChar (c : Char) : lowerChar (upperChar c) = lowerChar c := by
  apply char_toNat_inj
  rw [toNat_lowerChar, toNat_lowerChar, toNat_upperChar]
  split_ifs <;> omega

lemma lowerChar_lowerChar (c : Char) : lowerChar (lowerChar c) = lowerChar c := by
  apply char_toNat_inj
  rw [toNat_lowerChar, toNat_lowerChar]
  split_ifs <;> omega

lemma lowerString_upperString (s : String) :
    lowerString (upperString s) = lowerString s := by
  simp [lowerString, upperString, List.map_map, Function.comp_def,
    lowerChar_upperChar]

lemma lowerString_lowerString (s : String) :
    lowerString (lowerString s) = lowerString s := by
  simp [lowerString, List.map_map, Function.comp_def, lowerChar_lowerChar]

lemma normalize_congr {s t : String} (h : lowerString s = lowerString t) :
    normalize s = normalize t := by
  unfold normalize
  rw [h]

lemma namehash_congr {s t : String} (h : lowerString s = lowerString t) :
    namehash s = namehash t := by
  unfold namehash
  rw [normalize_congr h]

/-- C4: namehash is deterministic (equal inputs give equal results), depends
only on the lower-cased form of the domain (so any two capitalizations of
the same domain produce equal identifiers), and in particular agrees on the
upper-cased and lower-cased variants of every domain. -/
theorem namehash_deterministic_normalizing :
    (∀ s t : String, s = t → namehash s = namehash t) ∧
    (∀ s t : String, lowerString s = lowerString t → namehash s = namehash t) ∧
    (∀ s : String, namehash (upperString s) = namehash (lowerString s)) := by
  refine ⟨fun s t h => by rw [h], fun s t h => namehash_congr h, fun s => ?_⟩
  apply namehash_congr
  rw [lowerString_upperString, lowerString_lowerString]

/-- C4 witness: two concrete capitalizations of one domain hash equally. -/
theorem namehash_deterministic_normalizing_witness :
    namehash "MyName.ETH" = namehash "myname.eth" :=
  namehash_deterministic_normalizing.2.1 "MyName.ETH" "myname.eth" (by decide)

lemma lookupRecord_cons_self (records : List ((String × String) × String))
    (node key value : String) :
    lookupRecord (((node, key), value) :: records) node key = value := by
  simp [lookupRecord, List.find?]

/-- C1: setting a signature for a domain and then reading it back against the
resulting provider state returns the value that was set, whenever the domain
normalizes, the write call succeeds, and the read call succeeds. -/
theorem setSignature_getSignature_roundtrip (name sig node : String)
    (p : ExternalProvider) (hnode : namehash name = Except.ok node)
    (hw : p.failSetText = none) (hr : p.failText = none) :
    (getSignature name ((setSignature name p sig).1.2)).1 = Except.ok sig := by
  unfold setSignature providerSetText
  rw [hnode, hw]
  cases hwt : p.failWait <;>
    simp [getSignature, hnode, providerText, hr, lookupRecord_cons_self]

/-- C1 witness: the roundtrip at a concrete domain, signature and provider. -/
theorem setSignature_getSignature_roundtrip_witness :
    (getSignature "a.eth" ((setSignature "a.eth" p0 "0xsig").1.2)).1
      = Except.ok "0xsig" :=
  setSignature_getSignature_roundtrip "a.eth" "0xsig" "node(a.eth)" p0
    (by decide) rfl rfl

/-- C2: getPublicKey is absent (ok none) exactly when getSignature returns the
falsy empty string, errors exactly as getSignature errors, and otherwise
returns the key recovered from the signature getSignature returned. -/
theorem getPublicKey_tracks_getSignature (name : String)
    (p : ExternalProvider) :
    ((getPublicKey name p).1 = Except.ok none ↔
      (getSignature name p).1 = Except.ok "") ∧
    (∀ s, (getSignature name p).1 = Except.ok s → s ≠ "" →
      (getPublicKey name p).1
        = Except.ok (some (getPublicKeyFromSignature s))) ∧
    (∀ e, (getSignature name p).1 = Except.error e →
      (getPublicKey name p).1 = Except.error e) := by
  unfold getPublicKey getPublicKeyWith
  cases hg : getSignature name p with
  | mk r tr =>
    cases r with
    | error e => simp
    | ok s => by_cases hs : s = "" <;> simp [hs]

/-- C2 witness: reading through an empty provider yields an absent key. -/
theorem getPublicKey_tracks_getSignature_witness :
    (getPublicKey "a.eth" p0).1 = Except.ok none :=
  ((getPublicKey_tracks_getSignature "a.eth" p0).1).mpr (by decide)

lemma getPublicKeyWith_empty (recover : String → String) (name : String)
    (p : ExternalProvider) (h : (getSignature name p).1 = Except.ok "") :
    (getPublicKeyWith recover name p).1 = Except.ok none := by
  unfold getPublicKeyWith
  cases hg : getSignature name p with
  | mk r tr =>
    rw [hg] at h
    simp only at h
    subst h
    simp

/-- C3: for a well-formed domain with no stored record under the signature or
bytecode key, getSignature and getBytecode return the empty string and
getPublicKey returns none: the absent result, not an error. -/
theorem unset_records_read_absent (name node : String) (p : ExternalProvider)
    (hnode : namehash name = Except.ok node) (hr : p.failText = none)
    (hsig : lookupRecord p.records node umbraKeySignature = "")
    (hbyte : lookupRecord p.records node umbraKeyBytecode = "") :
    (getSignature name p).1 = Except.ok "" ∧
    (getBytecode name p).1 = Except.ok "" ∧
    (getPublicKey name p).1 = Except.ok none := by
  have hs : (getSignature name p).1 = Except.ok "" := by
    simp [getSignature, hnode, providerText, hr, hsig]
  refine ⟨hs, ?_, ?_⟩
  · simp [getBytecode, hnode, providerText, hr, hbyte]
  · exact getPublicKeyWith_empty getPublicKeyFromSignature name p hs

/-- C3 witness: a provider holding no records at all reads back absent. -/
theorem unset_records_read_absent_witness :
    (getSignature "a.eth" p0).1 = Except.ok "" ∧
    (getBytecode "a.eth" p0).1 = Except.ok "" ∧
    (getPublicKey "a.eth" p0).1 = Except.ok none :=
  unset_records_read_absent "a.eth" "node(a.eth)" p0 (by decide) rfl rfl rfl

lemma getSignature_trace (name node : String) (p : ExternalProvider)
    (hnode : namehash name = Except.ok node) :
    (getSignature name p).2 = [CallEvent.read node umbraKeySignature] := by
  unfold getSignature providerText
  rw [hnode]
  cases p.failText <;> rfl

lemma getBytecode_trace (name node : String) (p : ExternalProvider)
    (hnode : namehash name = Except.ok node) :
    (getBytecode name p).2 = [CallEvent.read node umbraKeyBytecode] := by
  unfold getBytecode providerText
  rw [hnode]
  cases p.failText <;> rfl

lemma getPublicKey_trace (name node : String) (p : ExternalProvider)
    (hnode : namehash name = Except.ok node) :
    (getPublicKey name p).2 = [CallEvent.read node umbraKeySignature] := by
  unfold getPublicKey getPublicKeyWith
  cases hg : getSignature name p with
  | mk r tr =>
    have htr : tr = [CallEvent.read node umbraKeySignature] := by
      have h := getSignature_trace name node p hnode
      rw [hg] at h
      exact h
    cases r with
    | error e => simpa using htr
    | ok s => by_cases hs : s = "" <;> simp [hs, htr]

lemma setSignature_trace (name sig node : String) (p : ExternalProvider)
    (hnode : namehash name = Except.ok node) :
    (setSignature name p sig).2
      = [CallEvent.write node umbraKeySignature sig] := by
  unfold setSignature providerSetText
  rw [hnode]
  cases p.failSetText with
  | some e => rfl
  | none => cases p.failWait <;> rfl

lemma getSignature_trace_err (name : String) (e : Err) (p : ExternalProvider)
    (h : namehash name = Except.error e) : (getSignature name p).2 = [] := by
  unfold getSignature
  rw [h]

lemma getBytecode_trace_err (name : String) (e : Err) (p : ExternalProvider)
    (h : namehash name = Except.error e) : (getBytecode name p).2 = [] := by
  unfold getBytecode
  rw [h]

lemma getPublicKey_trace_err (name : String) (e : Err) (p : ExternalProvider)
    (h : namehash name = Except.error e) : (getPublicKey name p).2 = [] := by
  unfold getPublicKey getPublicKeyWith
  cases hg : getSignature name p with
  | mk r tr =>
    have htr : tr = [] := by
      have h2 := getSignature_trace_err name e p h
      rw [hg] at h2
      exact h2
    cases r with
    | error e2 => simpa using htr
    | ok s => by_cases hs : s = "" <;> simp [hs, htr]

lemma setSignature_trace_err (name sig : String) (e : Err)
    (p : ExternalProvider) (h : namehash name = Except.error e) :
    (setSignature name p sig).2 = [] := by
  unfold setSignature
  rw [h]

/-- C5: every external call issued by getSignature, getBytecode, getPublicKey
and setSignature is keyed by the namehash identifier of the domain together
with the matching well-known umbra text-record key ('vnd.umbra-v0-signature'
for signature reads and writes, 'vnd.umbra-v0-bytecode' for bytecode reads),
and no other call is issued. -/
theorem resolver_calls_use_umbra_keys (name sig node : String)
    (p : ExternalProvider) (hnode : namehash name = Except.ok node) :
    (getSignature name p).2 = [CallEvent.read node umbraKeySignature] ∧
    (getBytecode name p).2 = [CallEvent.read node umbraKeyBytecode] ∧
    (getPublicKey name p).2 = [CallEvent.read node umbraKeySignature] ∧
    (setSignature name p sig).2
      = [CallEvent.write node umbraKeySignature sig] :=
  ⟨getSignature_trace name node p hnode, getBytecode_trace name node p hnode,
    getPublicKey_trace name node p hnode,
    setSignature_trace name sig node p hnode⟩

/-- C5 witness: the four call traces at a concrete domain and provider. -/
theorem resolver_calls_use_umbra_keys_witness :
    (getSignature "a.eth" p0).2
        = [CallEvent.read "node(a.eth)" umbraKeySignature] ∧
    (getBytecode "a.eth" p0).2
        = [CallEvent.read "node(a.eth)" umbraKeyBytecode] ∧
    (getPublicKey "a.eth" p0).2
        = [CallEvent.read "node(a.eth)" umbraKeySignature] ∧
    (setSignature "a.eth" p0 "0xsig").2
        = [CallEvent.write "node(a.eth)" umbraKeySignature "0xsig"] :=
  resolver_calls_use_umbra_keys "a.eth" "0xsig" "node(a.eth)" p0 (by decide)

/-- Recognizes a resolver read call. -/
def isRead : CallEvent → Bool
  | CallEvent.read _ _ => true
  | CallEvent.write _ _ _ => false

/-- Recognizes a resolver write call. -/
def isWrite : CallEvent → Bool
  | CallEvent.read _ _ => false
  | CallEvent.write _ _ _ => true

/-- C8: each exported function issues at most one external call and its calls
are of the single expected kind (reads for the three getters, a write for
setSignature); when the domain normalizes, each issues exactly one call. -/
theorem at_most_one_external_call (name sig : String) (p : ExternalProvider) :
    ((getSignature name p).2.length ≤ 1 ∧
      ∀ ev ∈ (getSignature name p).2, isRead ev) ∧
    ((getBytecode name p).2.length ≤ 1 ∧
      ∀ ev ∈ (getBytecode name p).2, isRead ev) ∧
    ((getPublicKey name p).2.length ≤ 1 ∧
      ∀ ev ∈ (getPublicKey name p).2, isRead ev) ∧
    ((setSignature name p sig).2.length ≤ 1 ∧
      ∀ ev ∈ (setSignature name p sig).2, isWrite ev) ∧
    (∀ node, namehash name = Except.ok node →
      (getSignature name p).2.length = 1 ∧
      (getBytecode name p).2.length = 1 ∧
      (getPublicKey name p).2.length = 1 ∧
      (setSignature name p sig).2.length = 1) := by
  cases hn : namehash name with
  | error e =>
    rw [getSignature_trace_err name e p hn, getBytecode_trace_err name e p hn,
      getPublicKey_trace_err name e p hn, setSignature_trace_err name sig e p hn]
    simp
  | ok node =>
    rw [getSignature_trace name node p hn, getBytecode_trace name node p hn,
      getPublicKey_trace name node p hn, setSignature_trace name sig node p hn]
    simp [isRead, isWrite]

/-- C8 witness: the call counts at a concrete domain and provider. -/
theorem at_most_one_external_call_witness :
    (getSignature "a.eth" p0).2.length = 1 ∧
    (getBytecode "a.eth" p0).2.length = 1 ∧
    (getPublicKey "a.eth" p0).2.length = 1 ∧
    (setSignature "a.eth" p0 "0xsig").2.length = 1 :=
  (at_most_one_external_call "a.eth" "0xsig" p0).2.2.2.2 "node(a.eth)"
    (by decide)

/-- C6: when the underlying write succeeds, setSignature returns the hash of
the write transaction it issued; and it consults the transaction's wait
result before returning, so a failing wait surfaces instead of the hash. -/
theorem setSignature_returns_txHash (name sig node : String)
    (p : ExternalProvider) (hnode : namehash name = Except.ok node)
    (hset : p.failSetText = none) :
    (p.failWait = none →
      (setSignature name p sig).1.1 = Except.ok p.nextTxHash) ∧
    (∀ e, p.failWait = some e →
      (setSignature name p sig).1.1 = Except.error e) := by
  unfold setSignature providerSetText
  rw [hnode, hset]
  constructor
  · intro hw
    simp [hw]
  · intro e hw
    simp [hw]

/-- C6 witness: a concrete successful write returns the provider's pending
transaction hash. -/
theorem setSignature_returns_txHash_witness :
    (setSignature "a.eth" p0 "0xsig").1.1 = Except.ok "0xabc" :=
  (setSignature_returns_txHash "a.eth" "0xsig" "node(a.eth)" p0 (by decide)
    rfl).1 rfl

/-- C7: failures of the external layers are propagated unchanged: a
normalization error surfaces verbatim from all four resolver-facing
functions, a read-transport error surfaces verbatim from the three getters,
and a write or wait error surfaces verbatim from setSignature. -/
theorem errors_propagate_unchanged (name sig : String)
    (p : ExternalProvider) :
    (∀ e, namehash name = Except.error e →
      (getSignature name p).1 = Except.error e ∧
      (getBytecode name p).1 = Except.error e ∧
      (getPublicKey name p).1 = Except.error e ∧
      (setSignature name p sig).1.1 = Except.error e) ∧
    (∀ e node, namehash name = Except.ok node → p.failText = some e →
      (getSignature name p).1 = Except.error e ∧
      (getBytecode name p).1 = Except.error e ∧
      (getPublicKey name p).1 = Except.error e) ∧
    (∀ e node, namehash name = Except.ok node → p.failSetText = some e →
      (setSignature name p sig).1.1 = Except.error e) ∧
    (∀ e node, namehash name = Except.ok node → p.failSetText = none →
      p.failWait = some e →
      (setSignature name p sig).1.1 = Except.error e) := by
  refine ⟨fun e he => ?_, fun e node hn hr => ?_, fun e node hn hw => ?_,
    fun e node hn hs hw => ?_⟩
  · have hg : (getSignature name p).1 = Except.error e := by
      simp [getSignature, he]
    refine ⟨hg, by simp [getBytecode, he], ?_, by simp [setSignature, he]⟩
    unfold getPublicKey getPublicKeyWith
    cases hge : getSignature name p with
    | mk r tr =>
      rw [hge] at hg
      simp only at hg
      subst hg
      simp
  · have hg : (getSignature name p).1 = Except.error e := by
      simp [getSignature, hn, providerText, hr]
    refine ⟨hg, by simp [getBytecode, hn, providerText, hr], ?_⟩
    unfold getPublicKey getPublicKeyWith
    cases hge : getSignature name p with
    | mk r tr =>
      rw [hge] at hg
      simp only at hg
      subst hg
      simp
  · simp [setSignature, providerSetText, hn, hw]
  · simp [setSignature, providerSetText, hn, hs, hw]

/-- C7 witness: a concrete transport read failure surfaces verbatim. -/
theorem errors_propagate_unchanged_witness :
    (getSignature "a.eth"
      { records := [], failText := some "boom", failSetText := none,
        failWait := none, nextTxHash := "0xabc" }).1
      = Except.error "boom" :=
  ((errors_propagate_unchanged "a.eth" "0xsig"
      { records := [], failText := some "boom", failSetText := none,
        failWait := none, nextTxHash := "0xabc" }).2.1
    "boom" "node(a.eth)" (by decide) rfl).1

/-- C9: when the stored signature record is the empty string, getSignature
returns that empty string unchanged while getPublicKey returns none, and the
none result holds for every key-recovery helper, so the helper is never
consulted. -/
theorem empty_record_absent_at_getPublicKey (name node : String)
    (p : ExternalProvider) (hnode : namehash name = Except.ok node)
    (hr : p.failText = none)
    (hsig : lookupRecord p.records node umbraKeySignature = "") :
    (getSignature name p).1 = Except.ok "" ∧
    (∀ recover : String → String,
      (getPublicKeyWith recover name p).1 = Except.ok none) := by
  have hs : (getSignature name p).1 = Except.ok "" := by
    simp [getSignature, hnode, providerText, hr, hsig]
  exact ⟨hs, fun recover => getPublicKeyWith_empty recover name p hs⟩

/-- A provider that stores an explicit empty-string signature record. -/
def pEmptySig : ExternalProvider :=
  { records := [(("node(a.eth)", umbraKeySignature), "")], failText := none,
    failSetText := none, failWait := none, nextTxHash := "0xabc" }

/-- C9 witness: an explicitly stored empty record reads back as the empty
string from getSignature yet as none from getPublicKey, for a key-recovery
helper that would have produced a nonempty key. -/
theorem empty_record_absent_at_getPublicKey_witness :
    (getSignature "a.eth" pEmptySig).1 = Except.ok "" ∧
    (getPublicKeyWith (fun s => "key" ++ s) "a.eth" pEmptySig).1
      = Except.ok none :=
  ⟨(empty_record_absent_at_getPublicKey "a.eth" "node(a.eth)" pEmptySig
      (by decide) rfl (by decide)).1,
    (empty_record_absent_at_getPublicKey "a.eth" "node(a.eth)" pEmptySig
      (by decide) rfl (by decide)).2 (fun s => "key" ++ s)⟩

lemma find?_bytecode_skips_sigKey (records : List ((String × String) × String))
    (node node2 sig : String) :
    (((node, umbraKeySignature), sig) :: records).find?
        (fun q => q.1.1 == node2 && q.1.2 == umbraKeyBytecode)
      = records.find? (fun q => q.1.1 == node2 && q.1.2 == umbraKeyBytecode) := by
  have hk : (umbraKeySignature == umbraKeyBytecode) = false := by decide
  simp [List.find?, hk]

lemma getBytecode_cons_sigKey (name2 node sig : String)
    (p : ExternalProvider) :
    (getBytecode name2
        { p with records := ((node, umbraKeySignature), sig) :: p.records }).1
      = (getBytecode name2 p).1 := by
  unfold getBytecode providerText
  cases hn2 : namehash name2 with
  | error e => rfl
  | ok node2 =>
    cases p.failText with
    | some e => rfl
    | none =>
      simp only [lookupRecord, find?_bytecode_skips_sigKey]

/-- C10: setSignature never modifies the bytecode record: for every domain,
provider state and signature, getBytecode returns the same value after a
setSignature call as before it, because the write lands only under the
signature key. -/
theorem setSignature_preserves_getBytecode (name name2 sig : String)
    (p : ExternalProvider) :
    (getBytecode name2 ((setSignature name p sig).1.2)).1
      = (getBytecode name2 p).1 := by
  cases hn : namehash name with
  | error e => simp [setSignature, hn]
  | ok node =>
    unfold setSignature providerSetText
    rw [hn]
    cases p.failSetText with
    | some e => rfl
    | none =>
      cases p.failWait with
      | some e => exact getBytecode_cons_sigKey name2 node sig p
      | none => exact getBytecode_cons_sigKey name2 node sig p

end UmbraEns
